import Mathlib

/-!
The chat-to-kubectl gateway of k8s-mattermost (`global.go`).

A shallow embedding of the command path of `global.go`:
`StringInSlice`, `CheckBeforeExec`, `ExecKubectl`,
`SendMsgToDebuggingChannel` and `HandleMsgFromDebuggingChannel`, together
with the library functions they call (`strings.Fields`, `strings.Replace`,
`strings.Split`, the whole-word regular expressions).

Conventions.
* A Go `string` is a `List Char` (`GoString`): the sequence of its runes.
  Literals are written `"...".toList`.
* `KubeWord` and `ValidVerbs` are package variables declared outside
  `global.go`; they are parameters (fields of `Env`), and so is the compiled
  regular expression `KubeWord` (`Env.kubeMatch`).
* The operating system is an oracle `run`: the result of
  `exec.Command(name, args...).Output()`, `none` when `err != nil`.
* What a handler does to the outside world is the list of its `Action`s, in
  order; a run-time panic is recorded in `Outcome.panicked`. Console logging
  (`println`, `fmt.Printf`) is not an action.
-/

namespace K8sMattermost

/-- A Go string, as the list of its runes. -/
abbrev GoString := List Char

/-! ## Library functions -/

/-- Go `unicode.IsSpace`: the Latin-1 spaces `\t \n \v \f \r`, space, U+0085,
U+00A0, and the other code points with the White_Space property. -/
def isSpace (c : Char) : Bool :=
  let n := c.toNat
  (9 ≤ n && n ≤ 13) || n == 0x20 || n == 0x85 || n == 0xA0 || n == 0x1680 ||
  (0x2000 ≤ n && n ≤ 0x200A) || n == 0x2028 || n == 0x2029 || n == 0x202F ||
  n == 0x205F || n == 0x3000

/-- The loop of `strings.FieldsFunc`: `cur` is the field being read (empty when
the scan is between fields). -/
def fieldsLoop (cur : GoString) : GoString → List GoString
  | [] => if cur = [] then [] else [cur]
  | c :: s =>
    if isSpace c then
      (if cur = [] then fieldsLoop [] s else cur :: fieldsLoop [] s)
    else fieldsLoop (cur ++ [c]) s

/-- Go `strings.Fields`: the maximal runs of non-space runes, in order. -/
def Fields (s : GoString) : List GoString := fieldsLoop [] s

/-- The scan of `strings.Replace` for a non-empty `old`: `skip` is the number of
runes of a matched occurrence still to be passed over. -/
def replaceLoop (old new : GoString) : Nat → GoString → GoString
  | _, [] => []
  | skip + 1, _ :: s => replaceLoop old new skip s
  | 0, c :: s =>
    if old.isPrefixOf (c :: s) then new ++ replaceLoop old new (old.length - 1) s
    else c :: replaceLoop old new 0 s

/-- Go `strings.Replace(s, old, new, -1)`: every non-overlapping occurrence of
`old`, found left to right, is replaced by `new`; an empty `old` matches before
every rune and at the end. -/
def Replace (s old new : GoString) : GoString :=
  if old = new then s
  else if old = [] then new ++ s.flatMap (fun c => c :: new)
  else replaceLoop old new 0 s

/-- The scan of `strings.Split` for a non-empty `sep`; the head of the result is
the piece being read. -/
def splitLoop (sep : GoString) : Nat → GoString → List GoString
  | _, [] => [[]]
  | skip + 1, _ :: s => splitLoop sep skip s
  | 0, c :: s =>
    if sep.isPrefixOf (c :: s) then [] :: splitLoop sep (sep.length - 1) s
    else
      match splitLoop sep 0 s with
      | [] => [[c]]
      | piece :: pieces => (c :: piece) :: pieces

/-- Go `strings.Split(s, sep)`: the pieces of `s` between the non-overlapping
occurrences of `sep`; an empty `sep` cuts after every rune. -/
def Split (s sep : GoString) : List GoString :=
  if sep = [] then s.map (fun c => [c]) else splitLoop sep 0 s

/-- The class `\w` of Go regular expressions: `[0-9A-Za-z_]`. -/
def isWordChar (c : Char) : Bool :=
  let n := c.toNat
  (48 ≤ n && n ≤ 57) || (65 ≤ n && n ≤ 90) || (97 ≤ n && n ≤ 122) || n == 95

/-- The tail `(?:$|\W)` of the word patterns, tried at the start of `s`. -/
def endOrNonWord : GoString → Bool
  | [] => true
  | c :: _ => !isWordChar c

/-- The part `w(?:$|\W)` of a word pattern, tried at the start of `s`. -/
def wordThenBoundary (w : GoString) (s : GoString) : Bool :=
  w.isPrefixOf s && endOrNonWord (s.drop w.length)

/-- The unanchored search of `(?:^|\W)w(?:$|\W)`: `atStart` tells whether the
scan stands at the beginning of the text, where `^` matches. -/
def wordSearch (w : GoString) : Bool → GoString → Bool
  | atStart, [] => atStart && wordThenBoundary w []
  | atStart, c :: s =>
    (atStart && wordThenBoundary w (c :: s)) ||
    (!isWordChar c && wordThenBoundary w s) ||
    wordSearch w false s

/-- Go ``regexp.MatchString(`(?:^|\W)w(?:$|\W)`, text)`` for a literal word `w`. -/
def matchWord (w text : GoString) : Bool := wordSearch w true text

/-- Substring search: `regexp.MatchString(p, text)` for a pattern `p` without
metacharacters, such as the trigger `!k` of the usage string. -/
def containsLiteral (p : GoString) : GoString → Bool
  | [] => p.isPrefixOf []
  | c :: s => p.isPrefixOf (c :: s) || containsLiteral p s

/-! ## The program -/

/-- `StringInSlice`: check if a string is in a `[]string`. -/
def StringInSlice (a : GoString) : List GoString → Bool
  | [] => false
  | b :: list => if b = a then true else StringInSlice a list

/-- The sentinel `"null"` that `CheckBeforeExec` returns for a message it does
not accept. -/
def null : GoString := "null".toList

/-- `CheckBeforeExec(words, lastmsg)`. `none` is the run-time panic of
`words[0]` on an empty slice. -/
def CheckBeforeExec (KubeWord : GoString) (ValidVerbs : List GoString)
    (words : List GoString) (lastmsg : GoString) : Option GoString :=
  match words with
  | [] => none
  | w0 :: _ =>
    if w0 = KubeWord ∧ 3 ≤ words.length then
      let cmd := Replace lastmsg KubeWord "/usr/local/bin/kubectl -n".toList
      let cmd := if words.getD 1 [] = "all".toList then cmd ++ " --all-namespaces".toList else cmd
      let cmd := if !StringInSlice (words.getD 2 []) ValidVerbs then null else cmd
      let cmd := if words.getD 2 [] = "logs".toList ∧ StringInSlice "-f".toList words = true
        then null else cmd
      let cmd := if words.getD 2 [] = "exec".toList ∧ StringInSlice "-it".toList words = true
        then null else cmd
      some cmd
    else some null

/-- What the handler does to the outside world. -/
inductive Action where
  /-- A call `CheckBeforeExec(words, lastmsg)`. -/
  | check (words : List GoString) (lastmsg : GoString)
  /-- A call `exec.Command(name, args...).Output()`. -/
  | spawn (name : GoString) (args : List GoString)
  /-- A call `client.CreatePost` with the post's channel, message and root id. -/
  | createPost (channelId msg rootId : GoString)
  deriving DecidableEq, Repr

/-- The process oracle: `some out` when the command ran with `err == nil` and
standard output `out`, `none` otherwise. -/
abbrev Runner := GoString → List GoString → Option GoString

/-- The argument vector `strings.Split(cmd, " ")` of `ExecKubectl`. -/
def argv (cmd : GoString) : List GoString := Split cmd " ".toList

/-- `ExecKubectl(cmd)`: the process it spawns and the string it returns. -/
def ExecKubectl (run : Runner) (cmd : GoString) : List Action × GoString :=
  let args := argv cmd
  let name := args.headD []
  match run name args.tail with
  | some out =>
    let result := "``` \n ".toList ++ out ++ " ```".toList
    ([Action.spawn name args.tail], Replace result "\n\n".toList "\n".toList)
  | none => ([Action.spawn name args.tail], [])

/-- The fields of `model.Post` the handler reads. -/
structure Post where
  Id : GoString
  UserId : GoString
  Message : GoString
  deriving DecidableEq, Repr

/-- What `event.Data["post"]` holds: a value that is no string (the type
assertion panics), a string `model.PostFromJson` cannot decode (`nil`), or a
post. -/
inductive PostField where
  | notAString
  | undecodable
  | decoded (post : Post)
  deriving DecidableEq, Repr

/-- The fields of `model.WebSocketEvent` the handler reads. -/
structure WebSocketEvent where
  ChannelId : GoString
  Event : GoString
  post : PostField
  deriving DecidableEq, Repr

/-- The constant `model.WEBSOCKET_EVENT_POSTED` of the Mattermost library. -/
def WEBSOCKET_EVENT_POSTED : GoString := "posted".toList

/-- The package state the handler reads. -/
structure Env where
  debuggingChannelId : GoString
  botUserId : GoString
  KubeWord : GoString
  ValidVerbs : List GoString
  /-- The compiled pattern: `regexp.MatchString(KubeWord, ·)`. -/
  kubeMatch : GoString → Bool
  run : Runner

/-- `SendMsgToDebuggingChannel(msg, replyToId)`. -/
def SendMsgToDebuggingChannel (env : Env) (msg replyToId : GoString) : List Action :=
  [Action.createPost env.debuggingChannelId msg replyToId]

/-- What one call of the handler did, and whether it ended in a panic. -/
structure Outcome where
  actions : List Action
  panicked : Bool
  deriving DecidableEq, Repr

/-- The canned replies of `HandleMsgFromDebuggingChannel`, source lines 162 to 189. -/
def cannedReplies (env : Env) (post : Post) : List Action :=
  if matchWord "alive".toList post.Message then
    SendMsgToDebuggingChannel env "Yes I'm running".toList post.Id
  else if matchWord "help".toList post.Message then
    SendMsgToDebuggingChannel env "!k [namespace] verb [ressource]".toList post.Id
  else if matchWord "up".toList post.Message then
    SendMsgToDebuggingChannel env "Yes I'm running".toList post.Id
  else if matchWord "running".toList post.Message then
    SendMsgToDebuggingChannel env "Yes I'm running".toList post.Id
  else if matchWord "Hello".toList post.Message then
    SendMsgToDebuggingChannel env "Hello my friend !".toList post.Id
  else []

/-- `HandleMsgFromDebuggingChannel(event)`. -/
def HandleMsgFromDebuggingChannel (env : Env) (event : WebSocketEvent) : Outcome :=
  if event.ChannelId ≠ env.debuggingChannelId then ⟨[], false⟩
  else if event.Event ≠ WEBSOCKET_EVENT_POSTED then ⟨[], false⟩
  else
    match event.post with
    | PostField.notAString => ⟨[], true⟩
    | PostField.undecodable => ⟨[], false⟩
    | PostField.decoded post =>
      if post.UserId = env.botUserId then ⟨[], false⟩
      else if env.kubeMatch post.Message then
        let words := Fields post.Message
        match CheckBeforeExec env.KubeWord env.ValidVerbs words post.Message with
        | none => ⟨[Action.check words post.Message], true⟩
        | some cmd =>
          let (spawned, cmdOut) := ExecKubectl env.run cmd
          if cmdOut ≠ null ∧ 0 < cmdOut.length then
            ⟨Action.check words post.Message :: spawned ++
              SendMsgToDebuggingChannel env cmdOut post.Id, false⟩
          else
            ⟨Action.check words post.Message :: spawned ++ cannedReplies env post, false⟩
      else ⟨cannedReplies env post, false⟩

/-! ## Specification-side definitions -/

/-- The word `w` occurs in `text` as a whole word: preceded by the start of the
text or a non-word character, followed by the end of the text or a non-word
character. -/
def occursAsWholeWord (w text : GoString) : Prop :=
  ∃ pre post, text = pre ++ w ++ post ∧
    (pre = [] ∨ ∃ init c, pre = init ++ [c] ∧ isWordChar c = false) ∧
    (post = [] ∨ ∃ c rest, post = c :: rest ∧ isWordChar c = false)

/-- The canned replies as a table of (word, reply), in the order the handler
tries them. -/
def cannedTable : List (GoString × GoString) :=
  [("alive".toList, "Yes I'm running".toList),
   ("help".toList, "!k [namespace] verb [ressource]".toList),
   ("up".toList, "Yes I'm running".toList),
   ("running".toList, "Yes I'm running".toList),
   ("Hello".toList, "Hello my friend !".toList)]

/-- The reply of the first entry of `cannedTable` whose word matches `text`. -/
def firstCanned (text : GoString) : Option GoString :=
  (cannedTable.find? (fun entry => matchWord entry.1 text)).map (fun entry => entry.2)

/-- The tokens joined by single spaces. -/
def joinSpace : List GoString → GoString
  | [] => []
  | [w] => w
  | w :: ws => w ++ ' ' :: joinSpace ws

/-- A configuration for the examples: trigger `!k` (the one of the usage
string), verbs `get`, `scale`, `logs`, `exec`. -/
def sampleEnv (run : Runner) : Env where
  debuggingChannelId := "debug".toList
  botUserId := "bot".toList
  KubeWord := "!k".toList
  ValidVerbs := ["get".toList, "scale".toList, "logs".toList, "exec".toList]
  kubeMatch := containsLiteral "!k".toList
  run := run

/-- A posted event on the monitored channel of `sampleEnv`, by the user `alice`,
with message id `m1`. -/
def samplePosted (text : String) : WebSocketEvent where
  ChannelId := "debug".toList
  Event := "posted".toList
  post := PostField.decoded ⟨"m1".toList, "alice".toList, text.toList⟩

/-- Every command fails (`err != nil`). -/
def failingRun : Runner := fun _ _ => none

/-- Every command succeeds and prints nothing. -/
def silentRun : Runner := fun _ _ => some []

/-- Every command succeeds and prints `out`. -/
def printingRun (out : String) : Runner := fun _ _ => some out.toList

/-! ## Lemmas on the library functions -/

theorem StringInSlice_iff (a : GoString) (list : List GoString) :
    StringInSlice a list = true ↔ a ∈ list := by
  induction list with
  | nil => simp [StringInSlice]
  | cons b list ih =>
    by_cases h : b = a
    · simp [StringInSlice, h]
    · have h2 : ¬ a = b := fun e => h e.symm
      simp [StringInSlice, h, h2, ih]

theorem wordThenBoundary_iff (w s : GoString) :
    wordThenBoundary w s = true ↔ ∃ post, s = w ++ post ∧ endOrNonWord post = true := by
  unfold wordThenBoundary
  rw [Bool.and_eq_true, List.isPrefixOf_iff_prefix]
  constructor
  · rintro ⟨⟨t, rfl⟩, h⟩
    exact ⟨t, rfl, by simpa using h⟩
  · rintro ⟨t, rfl, h⟩
    exact ⟨⟨t, rfl⟩, by simpa using h⟩

theorem endOrNonWord_iff (post : GoString) :
    endOrNonWord post = true ↔
      (post = [] ∨ ∃ c rest, post = c :: rest ∧ isWordChar c = false) := by
  cases post with
  | nil => simp [endOrNonWord]
  | cons c rest => simp [endOrNonWord]

theorem wordSearch_iff (w : GoString) (atStart : Bool) (s : GoString) :
    wordSearch w atStart s = true ↔
      ((atStart = true ∧ wordThenBoundary w s = true) ∨
        ∃ init c rest, s = init ++ c :: rest ∧ isWordChar c = false ∧
          wordThenBoundary w rest = true) := by
  induction s generalizing atStart with
  | nil => simp [wordSearch]
  | cons d s ih =>
    simp only [wordSearch, Bool.or_eq_true, Bool.and_eq_true, ih false]
    constructor
    · rintro ((h | h) | h)
      · exact Or.inl h
      · exact Or.inr ⟨[], d, s, rfl, by simpa using h.1, h.2⟩
      · rcases h with h | ⟨init, c, rest, rfl, hc, hw⟩
        · simp at h
        · exact Or.inr ⟨d :: init, c, rest, rfl, hc, hw⟩
    · rintro (h | ⟨init, c, rest, he, hc, hw⟩)
      · exact Or.inl (Or.inl h)
      · cases init with
        | nil =>
          simp only [List.nil_append, List.cons.injEq] at he
          obtain ⟨rfl, rfl⟩ := he
          exact Or.inl (Or.inr ⟨by simpa using hc, hw⟩)
        | cons e init =>
          simp only [List.cons_append, List.cons.injEq] at he
          obtain ⟨rfl, rfl⟩ := he
          exact Or.inr (Or.inr ⟨init, c, rest, rfl, hc, hw⟩)

/-- The regular expression of the handler decides `occursAsWholeWord`. -/
theorem matchWord_iff (w text : GoString) :
    matchWord w text = true ↔ occursAsWholeWord w text := by
  unfold matchWord occursAsWholeWord
  rw [wordSearch_iff]
  constructor
  · rintro (⟨-, h⟩ | ⟨init, c, rest, rfl, hc, h⟩)
    · obtain ⟨post, rfl, hp⟩ := (wordThenBoundary_iff _ _).1 h
      exact ⟨[], post, rfl, Or.inl rfl, (endOrNonWord_iff _).1 hp⟩
    · obtain ⟨post, rfl, hp⟩ := (wordThenBoundary_iff _ _).1 h
      exact ⟨init ++ [c], post, by simp, Or.inr ⟨init, c, rfl, hc⟩, (endOrNonWord_iff _).1 hp⟩
  · rintro ⟨pre, post, rfl, hpre, hpost⟩
    have hw : wordThenBoundary w (w ++ post) = true :=
      (wordThenBoundary_iff _ _).2 ⟨post, rfl, (endOrNonWord_iff _).2 hpost⟩
    rcases hpre with rfl | ⟨init, c, rfl, hc⟩
    · exact Or.inl ⟨rfl, by simpa using hw⟩
    · exact Or.inr ⟨init, c, w ++ post, by simp, hc, hw⟩

/-- The cascade of the handler is the first match of `cannedTable`. -/
theorem cannedReplies_eq (env : Env) (post : Post) :
    cannedReplies env post =
      match firstCanned post.Message with
      | some reply => [Action.createPost env.debuggingChannelId reply post.Id]
      | none => [] := by
  unfold cannedReplies firstCanned cannedTable SendMsgToDebuggingChannel
  simp only [List.find?]
  repeat' split <;> simp_all

/-! ### `strings.Split` on a single space -/

theorem splitLoop_ne_nil (sep : GoString) (k : Nat) (s : GoString) :
    splitLoop sep k s ≠ [] := by
  induction s generalizing k with
  | nil => cases k <;> simp [splitLoop]
  | cons c s ih =>
    cases k with
    | succ k => simpa [splitLoop] using ih k
    | zero =>
      simp only [splitLoop]
      split
      · simp
      · split <;> simp

theorem splitSpace_cons_space (s : GoString) :
    splitLoop [' '] 0 (' ' :: s) = [] :: splitLoop [' '] 0 s := by
  simp [splitLoop, List.isPrefixOf]

theorem splitSpace_cons_other (c : Char) (s : GoString) (hc : c ≠ ' ') :
    splitLoop [' '] 0 (c :: s) =
      (c :: (splitLoop [' '] 0 s).headD []) :: (splitLoop [' '] 0 s).tail := by
  have h : (' ' == c) = false := by simpa using fun e => hc e.symm
  simp only [splitLoop, List.isPrefixOf, h, Bool.false_and]
  cases hs : splitLoop [' '] 0 s with
  | nil => exact absurd hs (splitLoop_ne_nil _ _ _)
  | cons piece pieces => simp

theorem splitSpace_append (a b : GoString) :
    splitLoop [' '] 0 (a ++ ' ' :: b) = splitLoop [' '] 0 a ++ splitLoop [' '] 0 b := by
  induction a with
  | nil => simp [splitSpace_cons_space, splitLoop]
  | cons c a ih =>
    by_cases hc : c = ' '
    · subst hc
      simp [splitSpace_cons_space, ih]
    · rw [List.cons_append, splitSpace_cons_other _ _ hc, splitSpace_cons_other _ _ hc, ih]
      cases hs : splitLoop [' '] 0 a with
      | nil => exact absurd hs (splitLoop_ne_nil _ _ _)
      | cons piece pieces => simp

theorem splitSpace_token (w : GoString) (hw : ' ' ∉ w) : splitLoop [' '] 0 w = [w] := by
  induction w with
  | nil => simp [splitLoop]
  | cons c w ih =>
    have hc : c ≠ ' ' := fun e => hw (by simp [e])
    have hw2 : ' ' ∉ w := fun e => hw (List.mem_cons_of_mem _ e)
    rw [splitSpace_cons_other _ _ hc, ih hw2]
    simp

theorem splitSpace_joinSpace (ws : List GoString) (hne : ws ≠ [])
    (hws : ∀ w ∈ ws, ' ' ∉ w) : splitLoop [' '] 0 (joinSpace ws) = ws := by
  induction ws with
  | nil => exact absurd rfl hne
  | cons w ws ih =>
    cases ws with
    | nil => simpa [joinSpace] using splitSpace_token w (hws w (by simp))
    | cons v vs =>
      have h1 := splitSpace_token w (hws w (by simp))
      have h2 := ih (by simp) (fun x hx => hws x (List.mem_cons_of_mem _ hx))
      simp only [joinSpace] at h2 ⊢
      rw [splitSpace_append, h1, h2]
      simp

theorem argv_eq (cmd : GoString) : argv cmd = splitLoop [' '] 0 cmd := by
  simp [argv, Split]

/-! ### `strings.Replace` of a leading occurrence -/

theorem replaceLoop_skip (old new : GoString) (xs rest : GoString) :
    replaceLoop old new xs.length (xs ++ rest) = replaceLoop old new 0 rest := by
  induction xs with
  | nil => simp
  | cons x xs ih => simpa [replaceLoop] using ih

theorem replaceLoop_absent (old new : GoString) (s : GoString)
    (h : containsLiteral old s = false) : replaceLoop old new 0 s = s := by
  induction s with
  | nil => simp [replaceLoop]
  | cons c s ih =>
    simp only [containsLiteral, Bool.or_eq_false_iff] at h
    simp [replaceLoop, h.1, ih h.2]

theorem Replace_leading (old new rest : GoString) (hne : old ≠ []) (hon : old ≠ new)
    (h : containsLiteral old rest = false) : Replace (old ++ rest) old new = new ++ rest := by
  cases old with
  | nil => exact absurd rfl hne
  | cons c o =>
    have hp : (c :: o).isPrefixOf (c :: (o ++ rest)) = true := by
      rw [List.isPrefixOf_iff_prefix]
      exact ⟨rest, by simp⟩
    rw [Replace, if_neg hon, if_neg hne]
    show replaceLoop (c :: o) new 0 (c :: (o ++ rest)) = new ++ rest
    rw [replaceLoop, if_pos hp]
    simp only [List.length_cons, Nat.add_sub_cancel]
    rw [replaceLoop_skip, replaceLoop_absent _ _ _ h]

/-! ### `strings.Fields` -/

theorem fieldsLoop_tokens (cur s : GoString) (hcur : ∀ c ∈ cur, isSpace c = false) :
    ∀ w ∈ fieldsLoop cur s, w ≠ [] ∧ ∀ c ∈ w, isSpace c = false := by
  induction s generalizing cur with
  | nil =>
    intro w hw
    by_cases hc : cur = []
    · simp [fieldsLoop, hc] at hw
    · simp only [fieldsLoop, hc, if_false, List.mem_singleton] at hw
      subst hw
      exact ⟨hc, hcur⟩
  | cons d s ih =>
    intro w hw
    by_cases hd : isSpace d = true
    · by_cases hc : cur = []
      · simp only [fieldsLoop, hd, if_true, hc] at hw
        exact ih [] (by simp) w hw
      · simp only [fieldsLoop, hd, if_true, hc, if_false, List.mem_cons] at hw
        rcases hw with rfl | hw
        · exact ⟨hc, hcur⟩
        · exact ih [] (by simp) w hw
    · simp only [fieldsLoop, hd] at hw
      refine ih (cur ++ [d]) ?_ w hw
      intro c hcm
      rcases List.mem_append.1 hcm with h | h
      · exact hcur c h
      · simp only [List.mem_singleton] at h
        subst h
        simpa using hd

/-- A field is not empty and holds no space. -/
theorem Fields_tokens (s : GoString) :
    ∀ w ∈ Fields s, w ≠ [] ∧ ∀ c ∈ w, isSpace c = false :=
  fieldsLoop_tokens [] s (by simp)

theorem Fields_no_blank (s : GoString) : ∀ w ∈ Fields s, ' ' ∉ w := by
  intro w hw hmem
  have h := (Fields_tokens s w hw).2 ' ' hmem
  simp [isSpace] at h

/-! ### `CheckBeforeExec` and `ExecKubectl` -/

/-- What an accepted message went through: every test of `CheckBeforeExec`,
and the command built from the raw message. -/
theorem CheckBeforeExec_accepted (KubeWord : GoString) (ValidVerbs words : List GoString)
    (lastmsg cmd : GoString)
    (hacc : CheckBeforeExec KubeWord ValidVerbs words lastmsg = some cmd) (hnn : cmd ≠ null) :
    words.head? = some KubeWord ∧ 3 ≤ words.length ∧
    words.getD 2 [] ∈ ValidVerbs ∧
    ¬ (words.getD 2 [] = "logs".toList ∧ "-f".toList ∈ words) ∧
    ¬ (words.getD 2 [] = "exec".toList ∧ "-it".toList ∈ words) ∧
    cmd = (if words.getD 1 [] = "all".toList
      then Replace lastmsg KubeWord "/usr/local/bin/kubectl -n".toList ++
        " --all-namespaces".toList
      else Replace lastmsg KubeWord "/usr/local/bin/kubectl -n".toList) := by
  cases words with
  | nil => simp [CheckBeforeExec] at hacc
  | cons w0 ws =>
    simp only [CheckBeforeExec] at hacc
    split at hacc
    · rename_i hg
      simp only [Option.some.injEq] at hacc
      by_cases h5 : (w0 :: ws).getD 2 [] = "exec".toList ∧
          StringInSlice "-it".toList (w0 :: ws) = true
      · rw [if_pos h5] at hacc
        exact absurd hacc.symm hnn
      · rw [if_neg h5] at hacc
        by_cases h4 : (w0 :: ws).getD 2 [] = "logs".toList ∧
            StringInSlice "-f".toList (w0 :: ws) = true
        · rw [if_pos h4] at hacc
          exact absurd hacc.symm hnn
        · rw [if_neg h4] at hacc
          by_cases h3 : StringInSlice ((w0 :: ws).getD 2 []) ValidVerbs = true
          · simp only [h3, Bool.not_true, Bool.false_eq_true, if_false] at hacc
            rw [StringInSlice_iff] at h3 h4 h5
            exact ⟨by simp [hg.1], hg.2, h3, h4, h5, hacc.symm⟩
          · simp only [h3, Bool.not_false, if_true] at hacc
            exact absurd hacc.symm hnn
    · simp only [Option.some.injEq] at hacc
      exact absurd hacc.symm hnn

/-- The string `ExecKubectl` returns for a command that succeeded is neither
empty nor the sentinel. -/
theorem formatted_ne (out : GoString) :
    Replace ("``` \n ".toList ++ out ++ " ```".toList) "\n\n".toList "\n".toList ≠ null ∧
    0 < (Replace ("``` \n ".toList ++ out ++ " ```".toList) "\n\n".toList
      "\n".toList).length := by
  have h1 : "``` \n ".toList = ['`', '`', '`', ' ', '\n', ' '] := rfl
  have h2 : "\n\n".toList = ['\n', '\n'] := rfl
  have h3 : "\n".toList = ['\n'] := rfl
  have hp : ('\n' == '`') = false := by decide
  rw [h1, h2, h3]
  simp only [Replace, List.cons_append, replaceLoop, List.isPrefixOf, hp, Bool.false_and]
  simp [null]

/-- The argument vector of an accepted message that is its tokens joined by
single spaces and holds the trigger only as its first token. -/
theorem argv_of_joined (KubeWord : GoString) (ValidVerbs : List GoString)
    (text cmd : GoString)
    (hacc : CheckBeforeExec KubeWord ValidVerbs (Fields text) text = some cmd)
    (hnn : cmd ≠ null) (hjoin : text = joinSpace (Fields text))
    (honce : containsLiteral KubeWord (text.drop KubeWord.length) = false) :
    argv cmd = "/usr/local/bin/kubectl".toList :: "-n".toList :: (Fields text).tail ++
      (if (Fields text).getD 1 [] = "all".toList then ["--all-namespaces".toList] else []) := by
  obtain ⟨hhead, hlen, -, -, -, hcmd⟩ := CheckBeforeExec_accepted _ _ _ _ _ hacc hnn
  have hblank := Fields_no_blank text
  have htok := Fields_tokens text
  generalize Fields text = words at hhead hlen hcmd hblank htok hjoin ⊢
  match words, hhead, hlen with
  | w0 :: w1 :: ws, hhead, _ =>
    simp only [List.head?_cons, Option.some.injEq] at hhead
    subst hhead
    have hne : w0 ≠ [] := (htok w0 (by simp)).1
    have hb0 : ' ' ∉ w0 := hblank w0 (by simp)
    have hon : w0 ≠ "/usr/local/bin/kubectl -n".toList := by
      intro e
      apply hb0
      rw [e]
      decide
    have htext : text = w0 ++ ' ' :: joinSpace (w1 :: ws) := by
      rw [hjoin]
      rfl
    have hdrop : text.drop w0.length = ' ' :: joinSpace (w1 :: ws) := by
      rw [htext, List.drop_left]
    rw [hdrop] at honce
    have hrep : Replace text w0 "/usr/local/bin/kubectl -n".toList =
        "/usr/local/bin/kubectl".toList ++ ' ' :: ("-n".toList ++ ' ' :: joinSpace (w1 :: ws)) := by
      conv_lhs => rw [htext]
      rw [Replace_leading _ _ _ hne hon honce]
      have : "/usr/local/bin/kubectl -n".toList =
          "/usr/local/bin/kubectl".toList ++ ' ' :: "-n".toList := by decide
      rw [this]
      simp
    have htail : splitLoop [' '] 0 (joinSpace (w1 :: ws)) = w1 :: ws :=
      splitSpace_joinSpace _ (by simp) (fun x hx => hblank x (List.mem_cons_of_mem _ hx))
    have hk : splitLoop [' '] 0 "/usr/local/bin/kubectl".toList =
        ["/usr/local/bin/kubectl".toList] := splitSpace_token _ (by decide)
    have hn : splitLoop [' '] 0 "-n".toList = ["-n".toList] := splitSpace_token _ (by decide)
    have ha : splitLoop [' '] 0 "--all-namespaces".toList = ["--all-namespaces".toList] :=
      splitSpace_token _ (by decide)
    rw [argv_eq, hcmd, hrep]
    by_cases hall : (w0 :: w1 :: ws).getD 1 [] = "all".toList
    · rw [if_pos hall, if_pos hall]
      have : " --all-namespaces".toList = ' ' :: "--all-namespaces".toList := by decide
      rw [this, splitSpace_append, splitSpace_append, splitSpace_append, hk, hn, htail, ha]
      simp
    · rw [if_neg hall, if_neg hall]
      rw [splitSpace_append, splitSpace_append, hk, hn, htail]
      simp

/-! ### The handler past its filters -/

theorem handle_without_trigger (env : Env) (event : WebSocketEvent) (post : Post)
    (hch : event.ChannelId = env.debuggingChannelId)
    (hev : event.Event = WEBSOCKET_EVENT_POSTED)
    (hpost : event.post = PostField.decoded post)
    (huser : post.UserId ≠ env.botUserId)
    (hk : env.kubeMatch post.Message = false) :
    HandleMsgFromDebuggingChannel env event = ⟨cannedReplies env post, false⟩ := by
  unfold HandleMsgFromDebuggingChannel
  rw [if_neg (not_not.2 hch), if_neg (not_not.2 hev), hpost]
  dsimp only
  rw [if_neg huser, hk]
  rfl

theorem handle_with_trigger (env : Env) (event : WebSocketEvent) (post : Post)
    (cmd : GoString)
    (hch : event.ChannelId = env.debuggingChannelId)
    (hev : event.Event = WEBSOCKET_EVENT_POSTED)
    (hpost : event.post = PostField.decoded post)
    (huser : post.UserId ≠ env.botUserId)
    (hk : env.kubeMatch post.Message = true)
    (hcmd : CheckBeforeExec env.KubeWord env.ValidVerbs (Fields post.Message) post.Message =
      some cmd) :
    HandleMsgFromDebuggingChannel env event =
      if (ExecKubectl env.run cmd).2 ≠ null ∧ 0 < (ExecKubectl env.run cmd).2.length then
        ⟨Action.check (Fields post.Message) post.Message :: (ExecKubectl env.run cmd).1 ++
          SendMsgToDebuggingChannel env (ExecKubectl env.run cmd).2 post.Id, false⟩
      else
        ⟨Action.check (Fields post.Message) post.Message :: (ExecKubectl env.run cmd).1 ++
          cannedReplies env post, false⟩ := by
  unfold HandleMsgFromDebuggingChannel
  rw [if_neg (not_not.2 hch), if_neg (not_not.2 hev), hpost]
  dsimp only
  rw [if_neg huser, if_pos hk, hcmd]

theorem ExecKubectl_success (run : Runner) (cmd out : GoString)
    (hrun : run ((argv cmd).headD []) (argv cmd).tail = some out) :
    ExecKubectl run cmd = ([Action.spawn ((argv cmd).headD []) (argv cmd).tail],
      Replace ("``` \n ".toList ++ out ++ " ```".toList) "\n\n".toList "\n".toList) := by
  unfold ExecKubectl
  dsimp only
  rw [hrun]

theorem ExecKubectl_failure (run : Runner) (cmd : GoString)
    (hrun : run ((argv cmd).headD []) (argv cmd).tail = none) :
    ExecKubectl run cmd = ([Action.spawn ((argv cmd).headD []) (argv cmd).tail], []) := by
  unfold ExecKubectl
  dsimp only
  rw [hrun]

/-- A failed command leads to the canned replies. -/
theorem handle_failed_command (env : Env) (event : WebSocketEvent) (post : Post)
    (cmd : GoString)
    (hch : event.ChannelId = env.debuggingChannelId)
    (hev : event.Event = WEBSOCKET_EVENT_POSTED)
    (hpost : event.post = PostField.decoded post)
    (huser : post.UserId ≠ env.botUserId)
    (hk : env.kubeMatch post.Message = true)
    (hcmd : CheckBeforeExec env.KubeWord env.ValidVerbs (Fields post.Message) post.Message =
      some cmd)
    (hfail : env.run ((argv cmd).headD []) (argv cmd).tail = none) :
    HandleMsgFromDebuggingChannel env event =
      ⟨Action.check (Fields post.Message) post.Message ::
        Action.spawn ((argv cmd).headD []) (argv cmd).tail :: cannedReplies env post,
        false⟩ := by
  rw [handle_with_trigger env event post cmd hch hev hpost huser hk hcmd,
    ExecKubectl_failure _ _ hfail, if_neg (by simp)]
  rfl

/-! ## The claims -/

/-- C1, at a failing input. The message `!k  exec get -it sh` (two spaces after
the trigger) has the fields `!k`, `exec`, `get`, `-it`, `sh`: the validated verb
`words[2]` is `get`, so `CheckBeforeExec` accepts it. The argument vector that
`ExecKubectl` splits from the command has the verb `exec` at index 3 together
with `-it`; likewise `!k  delete get pods` is accepted and runs the verb
`delete`, which is not in `ValidVerbs`. The tokens executed are not the tokens
validated. -/
theorem C1_executed_tokens_differ_from_validated :
    (∃ cmd, CheckBeforeExec "!k".toList
        ["get".toList, "scale".toList, "logs".toList, "exec".toList]
        (Fields "!k  exec get -it sh".toList) "!k  exec get -it sh".toList = some cmd ∧
      cmd ≠ null ∧
      argv cmd = ["/usr/local/bin/kubectl".toList, "-n".toList, [], "exec".toList,
        "get".toList, "-it".toList, "sh".toList] ∧
      (argv cmd).getD 3 [] = "exec".toList ∧ "-it".toList ∈ argv cmd) ∧
    (∃ cmd, CheckBeforeExec "!k".toList
        ["get".toList, "scale".toList, "logs".toList, "exec".toList]
        (Fields "!k  delete get pods".toList) "!k  delete get pods".toList = some cmd ∧
      cmd ≠ null ∧
      (argv cmd).getD 3 [] = "delete".toList ∧
      (argv cmd).getD 3 [] ∉ ["get".toList, "scale".toList, "logs".toList, "exec".toList]) := by
  refine ⟨⟨_, rfl, ?_, ?_, ?_, ?_⟩, ⟨_, rfl, ?_, ?_, ?_⟩⟩ <;> decide

/-- C2. For a non-empty token sequence, `CheckBeforeExec` returns `"null"`
whenever a policy rule fails: the first token is not the trigger, or there are
fewer than three tokens, or the verb `words[2]` is not in `ValidVerbs`, or it is
`logs` with `-f` among the tokens, or `exec` with `-it` among the tokens. -/
theorem C2_rejected_when_a_rule_fails (KubeWord : GoString) (ValidVerbs words : List GoString)
    (lastmsg : GoString) (hne : words ≠ [])
    (hrule : words.head? ≠ some KubeWord ∨ words.length < 3 ∨
      ∃ verb, words[2]? = some verb ∧
        (verb ∉ ValidVerbs ∨ (verb = "logs".toList ∧ "-f".toList ∈ words) ∨
          (verb = "exec".toList ∧ "-it".toList ∈ words))) :
    CheckBeforeExec KubeWord ValidVerbs words lastmsg = some null := by
  cases words with
  | nil => exact absurd rfl hne
  | cons w0 ws =>
    simp only [CheckBeforeExec]
    split
    · rename_i hg
      rcases hrule with h | h | ⟨verb, hv, h⟩
      · exact absurd (by simp [hg.1]) h
      · omega
      · have hverb : (w0 :: ws).getD 2 [] = verb := by
          simp [List.getD_eq_getElem?_getD, hv]
        rw [hverb]
        simp only [Option.some.injEq]
        rcases h with h | h | h
        · have hin : StringInSlice verb ValidVerbs = false := by
            rw [← Bool.not_eq_true, StringInSlice_iff]
            exact h
          simp only [hin, Bool.not_false, if_true]
          split_ifs <;> rfl
        · have hin : StringInSlice "-f".toList (w0 :: ws) = true :=
            (StringInSlice_iff _ _).2 h.2
          simp only [h.1, hin, and_self, if_true]
          split_ifs <;> rfl
        · have hin : StringInSlice "-it".toList (w0 :: ws) = true :=
            (StringInSlice_iff _ _).2 h.2
          simp only [h.1, hin, and_self, if_true]
    · rfl

/-- C2 at the two inputs of the specification: `!k prod logs mypod -f` and
`!k prod exec mypod -it` with trigger `!k` are rejected. -/
theorem C2_rejected_when_a_rule_fails_witness :
    CheckBeforeExec "!k".toList ["get".toList, "scale".toList, "logs".toList, "exec".toList]
        ["!k".toList, "prod".toList, "logs".toList, "mypod".toList, "-f".toList]
        "!k prod logs mypod -f".toList = some null ∧
    CheckBeforeExec "!k".toList ["get".toList, "scale".toList, "logs".toList, "exec".toList]
        ["!k".toList, "prod".toList, "exec".toList, "mypod".toList, "-it".toList]
        "!k prod exec mypod -it".toList = some null :=
  ⟨C2_rejected_when_a_rule_fails _ _ _ _ (by decide)
      (Or.inr (Or.inr ⟨"logs".toList, rfl, Or.inr (Or.inl ⟨rfl, by decide⟩)⟩)),
   C2_rejected_when_a_rule_fails _ _ _ _ (by decide)
      (Or.inr (Or.inr ⟨"exec".toList, rfl, Or.inr (Or.inr ⟨rfl, by decide⟩)⟩))⟩

/-- C3, at a failing input. The message `!k  prod get pods` (two spaces after
the trigger) is accepted with the tokens `!k`, `prod`, `get`, `pods` and a
namespace other than `all`, and the arguments run are `-n`, the empty string,
`prod`, `get`, `pods`: an argument is added. For `!k prod get\npods` the tokens
`get` and `pods` are run as the one argument `get\npods`. -/
theorem C3_argv_is_not_the_tokens :
    (∃ cmd, CheckBeforeExec "!k".toList
        ["get".toList, "scale".toList, "logs".toList, "exec".toList]
        (Fields "!k  prod get pods".toList) "!k  prod get pods".toList = some cmd ∧
      cmd ≠ null ∧
      Fields "!k  prod get pods".toList =
        ["!k".toList, "prod".toList, "get".toList, "pods".toList] ∧
      argv cmd = ["/usr/local/bin/kubectl".toList, "-n".toList, [], "prod".toList,
        "get".toList, "pods".toList]) ∧
    (∃ cmd, CheckBeforeExec "!k".toList
        ["get".toList, "scale".toList, "logs".toList, "exec".toList]
        (Fields "!k prod get\npods".toList) "!k prod get\npods".toList = some cmd ∧
      cmd ≠ null ∧
      Fields "!k prod get\npods".toList =
        ["!k".toList, "prod".toList, "get".toList, "pods".toList] ∧
      argv cmd = ["/usr/local/bin/kubectl".toList, "-n".toList, "prod".toList,
        "get\npods".toList]) := by
  refine ⟨⟨_, rfl, ?_, ?_, ?_⟩, ⟨_, rfl, ?_, ?_, ?_⟩⟩ <;> decide

/-- C4, as stated, fails at its own input: for `!k all get pods` with trigger
`!k` the argument vector holds `--all-namespaces` and also `-n` followed by
`all`. -/
theorem C4_counterexample :
    ∃ cmd, CheckBeforeExec "!k".toList
        ["get".toList, "scale".toList, "logs".toList, "exec".toList]
        (Fields "!k all get pods".toList) "!k all get pods".toList = some cmd ∧
      cmd ≠ null ∧ (Fields "!k all get pods".toList).getD 1 [] = "all".toList ∧
      "--all-namespaces".toList ∈ argv cmd ∧
      argv cmd = ["/usr/local/bin/kubectl".toList] ++ ["-n".toList, "all".toList] ++
        ["get".toList, "pods".toList, "--all-namespaces".toList] := by
  refine ⟨_, rfl, ?_, ?_, ?_, ?_⟩ <;> decide

/-- C4, amended. For every accepted message whose namespace token is `all`, the
last argument run is `--all-namespaces`; the flag is added to the namespace
scope, not put in its place: when the message is its tokens joined by single
spaces and holds the trigger only as its first token, the arguments are `-n`,
`all`, the tokens from the verb on, and `--all-namespaces`. -/
theorem C4_wildcard_flag_is_appended (KubeWord : GoString) (ValidVerbs : List GoString)
    (text cmd : GoString)
    (hacc : CheckBeforeExec KubeWord ValidVerbs (Fields text) text = some cmd)
    (hnn : cmd ≠ null) (hall : (Fields text).getD 1 [] = "all".toList) :
    (argv cmd).getLast? = some "--all-namespaces".toList ∧
    (text = joinSpace (Fields text) →
      containsLiteral KubeWord (text.drop KubeWord.length) = false →
      argv cmd = "/usr/local/bin/kubectl".toList :: "-n".toList :: "all".toList ::
        ((Fields text).drop 2 ++ ["--all-namespaces".toList])) := by
  constructor
  · obtain ⟨-, -, -, -, -, hcmd⟩ := CheckBeforeExec_accepted _ _ _ _ _ hacc hnn
    rw [if_pos hall] at hcmd
    have h1 : " --all-namespaces".toList = ' ' :: "--all-namespaces".toList := by decide
    have h2 : splitLoop [' '] 0 "--all-namespaces".toList = ["--all-namespaces".toList] :=
      splitSpace_token _ (by decide)
    rw [argv_eq, hcmd, h1, splitSpace_append, h2]
    simp
  · intro hjoin honce
    obtain ⟨-, hlen, -, -, -, -⟩ := CheckBeforeExec_accepted _ _ _ _ _ hacc hnn
    rw [argv_of_joined _ _ _ _ hacc hnn hjoin honce, if_pos hall]
    generalize Fields text = words at hall hlen
    match words, hlen with
    | w0 :: w1 :: ws, _ =>
      simp only [List.getD_cons_succ, List.getD_cons_zero] at hall
      simp [hall]

/-- C4, amended, at `!k all get pods`. -/
theorem C4_wildcard_flag_is_appended_witness :
    (argv "/usr/local/bin/kubectl -n all get pods --all-namespaces".toList).getLast? =
      some "--all-namespaces".toList ∧
    argv "/usr/local/bin/kubectl -n all get pods --all-namespaces".toList =
      "/usr/local/bin/kubectl".toList :: "-n".toList :: "all".toList ::
        ((Fields "!k all get pods".toList).drop 2 ++ ["--all-namespaces".toList]) :=
  ⟨(C4_wildcard_flag_is_appended "!k".toList
      ["get".toList, "scale".toList, "logs".toList, "exec".toList]
      "!k all get pods".toList "/usr/local/bin/kubectl -n all get pods --all-namespaces".toList
      (by decide) (by decide) (by decide)).1,
   (C4_wildcard_flag_is_appended "!k".toList
      ["get".toList, "scale".toList, "logs".toList, "exec".toList]
      "!k all get pods".toList "/usr/local/bin/kubectl -n all get pods --all-namespaces".toList
      (by decide) (by decide) (by decide)).2 (by decide) (by decide)⟩

/-- C5, at a failing input. The message `!k prod delete pods`, posted by another
user on the monitored channel, is rejected (`delete` is not in `ValidVerbs`,
`CheckBeforeExec` returns `"null"`), and the handler still calls `ExecKubectl`,
which spawns a process: `exec.Command("null")`. -/
theorem C5_rejected_command_is_spawned :
    CheckBeforeExec (sampleEnv failingRun).KubeWord (sampleEnv failingRun).ValidVerbs
        (Fields "!k prod delete pods".toList) "!k prod delete pods".toList = some null ∧
    HandleMsgFromDebuggingChannel (sampleEnv failingRun) (samplePosted "!k prod delete pods") =
      ⟨[Action.check ["!k".toList, "prod".toList, "delete".toList, "pods".toList]
          "!k prod delete pods".toList,
        Action.spawn "null".toList []], false⟩ := by
  constructor <;> decide

/-- C6. An event of another channel, or of a kind other than `posted`, or whose
post was written by the bot itself, gets no reply and reaches neither
`CheckBeforeExec` nor `ExecKubectl`: the handler does nothing, whatever the
text. -/
theorem C6_filtered_events_do_nothing (env : Env) (event : WebSocketEvent)
    (hfilter : event.ChannelId ≠ env.debuggingChannelId ∨
      event.Event ≠ WEBSOCKET_EVENT_POSTED ∨
      ∃ post, event.post = PostField.decoded post ∧ post.UserId = env.botUserId) :
    HandleMsgFromDebuggingChannel env event = ⟨[], false⟩ := by
  unfold HandleMsgFromDebuggingChannel
  rcases hfilter with h | h | ⟨post, hp, hu⟩
  · rw [if_pos h]
  · by_cases hc : event.ChannelId ≠ env.debuggingChannelId
    · rw [if_pos hc]
    · rw [if_neg hc, if_pos h]
  · by_cases hc : event.ChannelId ≠ env.debuggingChannelId
    · rw [if_pos hc]
    · by_cases he : event.Event ≠ WEBSOCKET_EVENT_POSTED
      · rw [if_neg hc, if_pos he]
      · rw [if_neg hc, if_neg he, hp]
        dsimp only
        rw [if_pos hu]

/-- C6 at three events with the text `!k prod get pods alive`: one of another
channel, one of kind `typing`, one written by the bot. -/
theorem C6_filtered_events_do_nothing_witness :
    HandleMsgFromDebuggingChannel (sampleEnv silentRun)
        ⟨"other".toList, "posted".toList,
          PostField.decoded ⟨"m1".toList, "alice".toList, "!k prod get pods alive".toList⟩⟩ =
      ⟨[], false⟩ ∧
    HandleMsgFromDebuggingChannel (sampleEnv silentRun)
        ⟨"debug".toList, "typing".toList,
          PostField.decoded ⟨"m1".toList, "alice".toList, "!k prod get pods alive".toList⟩⟩ =
      ⟨[], false⟩ ∧
    HandleMsgFromDebuggingChannel (sampleEnv silentRun)
        ⟨"debug".toList, "posted".toList,
          PostField.decoded ⟨"m1".toList, "bot".toList, "!k prod get pods alive".toList⟩⟩ =
      ⟨[], false⟩ :=
  ⟨C6_filtered_events_do_nothing _ _ (Or.inl (by decide)),
   C6_filtered_events_do_nothing _ _ (Or.inr (Or.inl (by decide))),
   C6_filtered_events_do_nothing _ _ (Or.inr (Or.inr ⟨_, rfl, rfl⟩))⟩

/-- C7, as stated, fails: when the command `!k prod get pods` succeeds and
prints nothing, the handler still sends a command reply, the empty code
block; and when it prints `a`, an empty line and `b`, the reply is not that
output between the delimiters: the empty line is gone. -/
theorem C7_counterexample :
    HandleMsgFromDebuggingChannel (sampleEnv silentRun) (samplePosted "!k prod get pods") =
      ⟨[Action.check ["!k".toList, "prod".toList, "get".toList, "pods".toList]
          "!k prod get pods".toList,
        Action.spawn "/usr/local/bin/kubectl".toList
          ["-n".toList, "prod".toList, "get".toList, "pods".toList],
        Action.createPost "debug".toList "``` \n  ```".toList "m1".toList], false⟩ ∧
    HandleMsgFromDebuggingChannel (sampleEnv (printingRun "a\n\nb"))
        (samplePosted "!k prod get pods") =
      ⟨[Action.check ["!k".toList, "prod".toList, "get".toList, "pods".toList]
          "!k prod get pods".toList,
        Action.spawn "/usr/local/bin/kubectl".toList
          ["-n".toList, "prod".toList, "get".toList, "pods".toList],
        Action.createPost "debug".toList "``` \n a\nb ```".toList "m1".toList], false⟩ := by
  constructor <;> decide

/-- C7, amended. For a posted message of another user on the monitored channel
that matches the trigger and whose command is `cmd`: when the process succeeds
with output `out`, empty or not, the handler sends one command reply, the
string "``` \n " ++ out ++ " ```" with every "\n\n" replaced by "\n", in reply to
the message, and nothing else; when the process fails, no command reply is
sent and the handler goes on to the canned replies. -/
theorem C7_command_reply_iff_success (env : Env) (event : WebSocketEvent) (post : Post)
    (cmd : GoString)
    (hch : event.ChannelId = env.debuggingChannelId)
    (hev : event.Event = WEBSOCKET_EVENT_POSTED)
    (hpost : event.post = PostField.decoded post)
    (huser : post.UserId ≠ env.botUserId)
    (hk : env.kubeMatch post.Message = true)
    (hcmd : CheckBeforeExec env.KubeWord env.ValidVerbs (Fields post.Message) post.Message =
      some cmd) :
    (∀ out, env.run ((argv cmd).headD []) (argv cmd).tail = some out →
      HandleMsgFromDebuggingChannel env event =
        ⟨[Action.check (Fields post.Message) post.Message,
          Action.spawn ((argv cmd).headD []) (argv cmd).tail,
          Action.createPost env.debuggingChannelId
            (Replace ("``` \n ".toList ++ out ++ " ```".toList) "\n\n".toList "\n".toList)
            post.Id], false⟩) ∧
    (env.run ((argv cmd).headD []) (argv cmd).tail = none →
      HandleMsgFromDebuggingChannel env event =
        ⟨Action.check (Fields post.Message) post.Message ::
          Action.spawn ((argv cmd).headD []) (argv cmd).tail :: cannedReplies env post,
          false⟩) := by
  constructor
  · intro out hrun
    rw [handle_with_trigger env event post cmd hch hev hpost huser hk hcmd,
      ExecKubectl_success _ _ _ hrun, if_pos (formatted_ne out)]
    rfl
  · intro hrun
    exact handle_failed_command env event post cmd hch hev hpost huser hk hcmd hrun

/-- C7, amended, at `!k prod get pods` with a process that succeeds and
prints nothing, and at a process that fails. -/
theorem C7_command_reply_iff_success_witness :
    HandleMsgFromDebuggingChannel (sampleEnv silentRun) (samplePosted "!k prod get pods") =
      ⟨[Action.check (Fields "!k prod get pods".toList) "!k prod get pods".toList,
        Action.spawn ((argv "/usr/local/bin/kubectl -n prod get pods".toList).headD [])
          (argv "/usr/local/bin/kubectl -n prod get pods".toList).tail,
        Action.createPost "debug".toList
          (Replace ("``` \n ".toList ++ [] ++ " ```".toList) "\n\n".toList "\n".toList)
          "m1".toList], false⟩ ∧
    HandleMsgFromDebuggingChannel (sampleEnv failingRun) (samplePosted "!k prod get pods") =
      ⟨Action.check (Fields "!k prod get pods".toList) "!k prod get pods".toList ::
        Action.spawn ((argv "/usr/local/bin/kubectl -n prod get pods".toList).headD [])
          (argv "/usr/local/bin/kubectl -n prod get pods".toList).tail ::
        cannedReplies (sampleEnv failingRun)
          ⟨"m1".toList, "alice".toList, "!k prod get pods".toList⟩, false⟩ :=
  ⟨(C7_command_reply_iff_success (sampleEnv silentRun) (samplePosted "!k prod get pods")
      ⟨"m1".toList, "alice".toList, "!k prod get pods".toList⟩
      "/usr/local/bin/kubectl -n prod get pods".toList
      rfl rfl rfl (by decide) (by decide) (by decide)).1 [] rfl,
   (C7_command_reply_iff_success (sampleEnv failingRun) (samplePosted "!k prod get pods")
      ⟨"m1".toList, "alice".toList, "!k prod get pods".toList⟩
      "/usr/local/bin/kubectl -n prod get pods".toList
      rfl rfl rfl (by decide) (by decide) (by decide)).2 rfl⟩

/-- C8, as stated, fails. The message `!k prod get pods help` holds the trigger
and is accepted by the policy. When its command fails, the handler goes on to
the canned replies and sends the usage string; when its command succeeds and
prints nothing, the handler sends the empty code block. In both cases a reply
is produced. -/
theorem C8_counterexample :
    (∃ cmd, CheckBeforeExec (sampleEnv failingRun).KubeWord (sampleEnv failingRun).ValidVerbs
        (Fields "!k prod get pods help".toList) "!k prod get pods help".toList = some cmd ∧
      cmd ≠ null) ∧
    HandleMsgFromDebuggingChannel (sampleEnv failingRun)
        (samplePosted "!k prod get pods help") =
      ⟨[Action.check
          ["!k".toList, "prod".toList, "get".toList, "pods".toList, "help".toList]
          "!k prod get pods help".toList,
        Action.spawn "/usr/local/bin/kubectl".toList
          ["-n".toList, "prod".toList, "get".toList, "pods".toList, "help".toList],
        Action.createPost "debug".toList "!k [namespace] verb [ressource]".toList
          "m1".toList], false⟩ ∧
    HandleMsgFromDebuggingChannel (sampleEnv silentRun)
        (samplePosted "!k prod get pods help") =
      ⟨[Action.check
          ["!k".toList, "prod".toList, "get".toList, "pods".toList, "help".toList]
          "!k prod get pods help".toList,
        Action.spawn "/usr/local/bin/kubectl".toList
          ["-n".toList, "prod".toList, "get".toList, "pods".toList, "help".toList],
        Action.createPost "debug".toList "``` \n  ```".toList "m1".toList], false⟩ := by
  refine ⟨⟨_, rfl, ?_⟩, ?_, ?_⟩ <;> decide

/-- C8, amended. For a posted message of another user on the monitored channel
that matches the trigger and is accepted by the policy (`CheckBeforeExec`
returns a command `cmd` other than `"null"`): the command path comes first.
When the process run for `cmd` fails, the handler sends no command reply and
goes on to the canned replies, so its only reply is that of the first matching
canned pattern, and it sends none when no pattern matches. When the process
succeeds with output `out`, empty or not, the command reply is the only reply,
whatever words the text holds. -/
theorem C8_failed_command_falls_through (env : Env) (event : WebSocketEvent) (post : Post)
    (cmd : GoString)
    (hch : event.ChannelId = env.debuggingChannelId)
    (hev : event.Event = WEBSOCKET_EVENT_POSTED)
    (hpost : event.post = PostField.decoded post)
    (huser : post.UserId ≠ env.botUserId)
    (hk : env.kubeMatch post.Message = true)
    (hcmd : CheckBeforeExec env.KubeWord env.ValidVerbs (Fields post.Message) post.Message =
      some cmd)
    (_hacc : cmd ≠ null) :
    (env.run ((argv cmd).headD []) (argv cmd).tail = none →
      HandleMsgFromDebuggingChannel env event =
        ⟨Action.check (Fields post.Message) post.Message ::
          Action.spawn ((argv cmd).headD []) (argv cmd).tail ::
          (match firstCanned post.Message with
            | some reply => [Action.createPost env.debuggingChannelId reply post.Id]
            | none => []), false⟩) ∧
    (∀ out, env.run ((argv cmd).headD []) (argv cmd).tail = some out →
      HandleMsgFromDebuggingChannel env event =
        ⟨[Action.check (Fields post.Message) post.Message,
          Action.spawn ((argv cmd).headD []) (argv cmd).tail,
          Action.createPost env.debuggingChannelId
            (Replace ("``` \n ".toList ++ out ++ " ```".toList) "\n\n".toList "\n".toList)
            post.Id], false⟩) := by
  constructor
  · intro hfail
    rw [← cannedReplies_eq]
    exact handle_failed_command env event post cmd hch hev hpost huser hk hcmd hfail
  · intro out hrun
    rw [handle_with_trigger env event post cmd hch hev hpost huser hk hcmd,
      ExecKubectl_success _ _ _ hrun, if_pos (formatted_ne out)]
    rfl

/-- C8, amended, at the accepted message `!k prod get pods help`: with a
command that fails, and with a command that prints `ok`. -/
theorem C8_failed_command_falls_through_witness :
    HandleMsgFromDebuggingChannel (sampleEnv failingRun)
        (samplePosted "!k prod get pods help") =
      ⟨Action.check (Fields "!k prod get pods help".toList) "!k prod get pods help".toList ::
        Action.spawn ((argv "/usr/local/bin/kubectl -n prod get pods help".toList).headD [])
          (argv "/usr/local/bin/kubectl -n prod get pods help".toList).tail ::
        (match firstCanned "!k prod get pods help".toList with
          | some reply => [Action.createPost "debug".toList reply "m1".toList]
          | none => []), false⟩ ∧
    HandleMsgFromDebuggingChannel (sampleEnv (printingRun "ok"))
        (samplePosted "!k prod get pods help") =
      ⟨[Action.check (Fields "!k prod get pods help".toList) "!k prod get pods help".toList,
        Action.spawn ((argv "/usr/local/bin/kubectl -n prod get pods help".toList).headD [])
          (argv "/usr/local/bin/kubectl -n prod get pods help".toList).tail,
        Action.createPost "debug".toList
          (Replace ("``` \n ".toList ++ "ok".toList ++ " ```".toList) "\n\n".toList
            "\n".toList)
          "m1".toList], false⟩ :=
  ⟨(C8_failed_command_falls_through (sampleEnv failingRun)
      (samplePosted "!k prod get pods help")
      ⟨"m1".toList, "alice".toList, "!k prod get pods help".toList⟩
      "/usr/local/bin/kubectl -n prod get pods help".toList
      rfl rfl rfl (by decide) (by decide) (by decide) (by decide)).1 rfl,
   (C8_failed_command_falls_through (sampleEnv (printingRun "ok"))
      (samplePosted "!k prod get pods help")
      ⟨"m1".toList, "alice".toList, "!k prod get pods help".toList⟩
      "/usr/local/bin/kubectl -n prod get pods help".toList
      rfl rfl rfl (by decide) (by decide) (by decide) (by decide)).2 "ok".toList rfl⟩

/-- C9, as stated, fails: the message `help up` holds the whole words `up` and
`help`, not `alive`, and no trigger; the reply is the usage string, not
the liveness string. -/
theorem C9_counterexample :
    matchWord "up".toList "help up".toList = true ∧
    matchWord "help".toList "help up".toList = true ∧
    matchWord "alive".toList "help up".toList = false ∧
    HandleMsgFromDebuggingChannel (sampleEnv failingRun) (samplePosted "help up") =
      ⟨[Action.createPost "debug".toList "!k [namespace] verb [ressource]".toList
          "m1".toList], false⟩ ∧
    "!k [namespace] verb [ressource]".toList ≠ "Yes I'm running".toList := by
  refine ⟨?_, ?_, ?_, ?_, ?_⟩ <;> decide

/-- C9, amended. For a posted message of another user on the monitored channel
that does not match the trigger, the reply is the canned response of the first
pattern that matches, in the order `alive` (liveness), `help` (usage), `up`
(liveness), `running` (liveness), `Hello` (greeting); exactly one reply is
sent, none if no pattern matches. In particular a message with the whole words
`up` and `help` and without `alive` receives the usage string. -/
theorem C9_first_canned_pattern_wins (env : Env) (event : WebSocketEvent) (post : Post)
    (hch : event.ChannelId = env.debuggingChannelId)
    (hev : event.Event = WEBSOCKET_EVENT_POSTED)
    (hpost : event.post = PostField.decoded post)
    (huser : post.UserId ≠ env.botUserId)
    (hk : env.kubeMatch post.Message = false) :
    HandleMsgFromDebuggingChannel env event =
      ⟨(match firstCanned post.Message with
          | some reply => [Action.createPost env.debuggingChannelId reply post.Id]
          | none => []), false⟩ ∧
    (occursAsWholeWord "up".toList post.Message →
      occursAsWholeWord "help".toList post.Message →
      ¬ occursAsWholeWord "alive".toList post.Message →
      HandleMsgFromDebuggingChannel env event =
        ⟨[Action.createPost env.debuggingChannelId "!k [namespace] verb [ressource]".toList
          post.Id], false⟩) := by
  have hh := handle_without_trigger env event post hch hev hpost huser hk
  constructor
  · rw [hh, cannedReplies_eq]
  · intro _ hhelp halive
    rw [← matchWord_iff] at hhelp halive
    rw [hh]
    unfold cannedReplies
    rw [if_neg halive, if_pos hhelp]
    rfl

/-- C9, amended, at the message `help up`. -/
theorem C9_first_canned_pattern_wins_witness :
    HandleMsgFromDebuggingChannel (sampleEnv failingRun) (samplePosted "help up") =
      ⟨(match firstCanned "help up".toList with
          | some reply => [Action.createPost "debug".toList reply "m1".toList]
          | none => []), false⟩ ∧
    HandleMsgFromDebuggingChannel (sampleEnv failingRun) (samplePosted "help up") =
      ⟨[Action.createPost "debug".toList "!k [namespace] verb [ressource]".toList
        "m1".toList], false⟩ :=
  ⟨(C9_first_canned_pattern_wins (sampleEnv failingRun) (samplePosted "help up")
      ⟨"m1".toList, "alice".toList, "help up".toList⟩ rfl rfl rfl (by decide) (by decide)).1,
   (C9_first_canned_pattern_wins (sampleEnv failingRun) (samplePosted "help up")
      ⟨"m1".toList, "alice".toList, "help up".toList⟩ rfl rfl rfl (by decide) (by decide)).2
      ((matchWord_iff _ _).1 (by decide)) ((matchWord_iff _ _).1 (by decide))
      (fun h => absurd ((matchWord_iff _ _).2 h) (by decide))⟩

/-- C10. For a posted message of another user on the monitored channel that
does not match the trigger and holds `alive` as a whole word, the handler
sends exactly one reply, `Yes I'm running`, in reply to that message's id. -/
theorem C10_alive_gets_liveness_reply (env : Env) (event : WebSocketEvent) (post : Post)
    (hch : event.ChannelId = env.debuggingChannelId)
    (hev : event.Event = WEBSOCKET_EVENT_POSTED)
    (hpost : event.post = PostField.decoded post)
    (huser : post.UserId ≠ env.botUserId)
    (hk : env.kubeMatch post.Message = false)
    (halive : occursAsWholeWord "alive".toList post.Message) :
    HandleMsgFromDebuggingChannel env event =
      ⟨[Action.createPost env.debuggingChannelId "Yes I'm running".toList post.Id],
        false⟩ := by
  rw [← matchWord_iff] at halive
  rw [handle_without_trigger env event post hch hev hpost huser hk]
  unfold cannedReplies
  rw [if_pos halive]
  rfl

/-- C10 at the message `is the bot alive`. -/
theorem C10_alive_gets_liveness_reply_witness :
    occursAsWholeWord "alive".toList "is the bot alive".toList ∧
    HandleMsgFromDebuggingChannel (sampleEnv failingRun) (samplePosted "is the bot alive") =
      ⟨[Action.createPost "debug".toList "Yes I'm running".toList "m1".toList], false⟩ :=
  ⟨⟨"is the bot ".toList, [], by decide, Or.inr ⟨"is the bot".toList, ' ', by decide, by decide⟩,
      Or.inl rfl⟩,
   C10_alive_gets_liveness_reply (sampleEnv failingRun) (samplePosted "is the bot alive")
      ⟨"m1".toList, "alice".toList, "is the bot alive".toList⟩ rfl rfl rfl (by decide)
      (by decide)
      ⟨"is the bot ".toList, [], by decide, Or.inr ⟨"is the bot".toList, ' ', by decide, by decide⟩,
        Or.inl rfl⟩⟩

end K8sMattermost
